import Mathlib

/-!
Shallow embedding of the `ball-phys` simulation core (`src/main.rs` and
`src/phys.rs`).  Scalars (`f32` in the source) are modelled as real numbers;
the raylib 2-D vector primitives (`Vector2`) are modelled by `Vec2` below with
their usual componentwise semantics: `length v = sqrt (x*x + y*y)` and
`normalized v = v / length v`.  Machine integers (`i32`, the wake budget) are
modelled as `ℤ`.  All definitions follow the Rust source line by line.
-/

namespace BallPhys

noncomputable section

/-- 2-D vector, modelling raylib's `Vector2` with `f32` coordinates read as
real numbers. -/
structure Vec2 where
  x : ℝ
  y : ℝ

namespace Vec2

def add (a b : Vec2) : Vec2 := ⟨a.x + b.x, a.y + b.y⟩

def sub (a b : Vec2) : Vec2 := ⟨a.x - b.x, a.y - b.y⟩

def neg (a : Vec2) : Vec2 := ⟨-a.x, -a.y⟩

/-- Scalar multiplication `v * c` / `c * v`. -/
def smul (c : ℝ) (a : Vec2) : Vec2 := ⟨c * a.x, c * a.y⟩

/-- Componentwise product, raylib's `Vector2 * Vector2`. -/
def cmul (a b : Vec2) : Vec2 := ⟨a.x * b.x, a.y * b.y⟩

def dot (a b : Vec2) : ℝ := a.x * b.x + a.y * b.y

/-- raylib `Vector2::length`. -/
def length (a : Vec2) : ℝ := Real.sqrt (a.x * a.x + a.y * a.y)

/-- raylib `Vector2::normalized`, i.e. `v / length v`; at the zero vector the
real-number model yields `⟨0, 0⟩` (division by zero), matching raymath's
zero-length fallback. -/
def normalized (a : Vec2) : Vec2 := ⟨a.x / a.length, a.y / a.length⟩

def zero : Vec2 := ⟨0, 0⟩

/-- raylib `Vector2::one()`. -/
def one : Vec2 := ⟨1, 1⟩

end Vec2

/-- `f32::EPSILON = 2⁻²³`. -/
def f32EPS : ℝ := 1 / 8388608

/-- `const DAMPING: f32 = 1.0`. -/
def DAMPING : ℝ := 1

/-- `const FREEZING_THRESHOLD: f32 = 1e-4`. -/
def FREEZING_THRESHOLD : ℝ := 1 / 10000

/-- `const GRAVITY: Vector2 = Vector2::new(0.0, -980.0)`. -/
def GRAVITY : Vec2 := ⟨0, -980⟩

/-- Rust `f32::signum` (on non-NaN, non-negative-zero reals: `1` for
`x ≥ 0`, `-1` for `x < 0`). -/
def fsign (x : ℝ) : ℝ := if x < 0 then -1 else 1

/-- `Camera` from `main.rs`: position offset, uniform scale, per-axis scale
vector. -/
structure Camera where
  position : Vec2
  scale : ℝ
  scale_v : Vec2

namespace Camera

/-- `Camera::new`: `scale_v = Vector2::one() * scale`. -/
def new (position : Vec2) (scale : ℝ) : Camera :=
  { position := position, scale := scale, scale_v := Vec2.smul scale Vec2.one }

def set_position (c : Camera) (position : Vec2) : Camera :=
  { c with position := position }

/-- `Camera::set_scale`: sets both the uniform scale and the per-axis scale
vector to `(scale, scale)`. -/
def set_scale (c : Camera) (scale : ℝ) : Camera :=
  { c with scale := scale, scale_v := ⟨scale, scale⟩ }

/-- `Camera::invert_v`: `scale_v *= Vector2::new(1.0, -1.0)`. -/
def invert_v (c : Camera) : Camera :=
  { c with scale_v := Vec2.cmul c.scale_v ⟨1, -1⟩ }

/-- `Camera::invert_h`: `scale_v *= Vector2::new(-1.0, 1.0)`. -/
def invert_h (c : Camera) : Camera :=
  { c with scale_v := Vec2.cmul c.scale_v ⟨-1, 1⟩ }

/-- `Camera::project`: `(v * scale_v) + position`. -/
def project (c : Camera) (v : Vec2) : Vec2 :=
  Vec2.add (Vec2.cmul v c.scale_v) c.position

/-- `Camera::scale` applied to a scalar. -/
def scaleScalar (c : Camera) (v : ℝ) : ℝ := v * c.scale

end Camera

/-- `Ball` from `main.rs`.  The `color` field is opaque to the physics and is
modelled by a bare number. -/
structure Ball where
  id : ℕ
  center : Vec2
  radius : ℝ
  mass : ℝ
  color : ℕ
  velocity : Vec2
  freezing : ℤ

namespace Ball

/-- `Ball::new`: mass equals radius, zero velocity, wake budget 10. -/
def new (id : ℕ) (center : Vec2) (radius : ℝ) (color : ℕ) : Ball :=
  { id := id, center := center, radius := radius, color := color,
    mass := radius, velocity := Vec2.zero, freezing := 10 }

/-- `Ball::apply_collision(self, v, other)`: positional correction by half the
penetration vector, elastic velocity exchange along the normal, and the wake
reset of the struck ball.  Returns the updated `(self, other)` pair. -/
def apply_collision (self : Ball) (v : Vec2) (other : Ball) : Ball × Ball :=
  -- static collision
  let half_d := Vec2.smul (1 / 2) v
  let selfCenter := Vec2.add self.center half_d
  let otherCenter := Vec2.sub other.center half_d
  -- dynamic collision
  let normal := v.normalized
  let tangent : Vec2 := ⟨-normal.y, normal.x⟩
  let dot_tan_self := self.velocity.dot tangent
  let dot_tan_other := other.velocity.dot tangent
  let dot_normal_self := self.velocity.dot normal
  let dot_normal_other := other.velocity.dot normal
  let total_mass := self.mass + other.mass
  let momentum_self :=
    (dot_normal_self * (self.mass - other.mass)
      + 2 * other.mass * dot_normal_other) / total_mass
  let momentum_other :=
    (dot_normal_other * (other.mass - self.mass)
      + 2 * self.mass * dot_normal_self) / total_mass
  let selfVelocity := Vec2.add (Vec2.smul dot_tan_self tangent)
    (Vec2.smul momentum_self normal)
  let otherVelocity := Vec2.add (Vec2.smul dot_tan_other tangent)
    (Vec2.smul momentum_other normal)
  let otherFreezing :=
    if other.freezing < 0 ∧ otherVelocity.length > FREEZING_THRESHOLD then
      (10 : ℤ)
    else other.freezing
  ({ self with center := selfCenter, velocity := selfVelocity },
   { other with
      center := otherCenter
      velocity := otherVelocity
      freezing := otherFreezing })

/-- `Ball::collides`: circle-circle overlap test returning the penetration
vector `normalized(other - self) * (dist - (r_other + r_self))`. -/
def collides (self other : Ball) : Option Vec2 :=
  let direction := Vec2.sub other.center self.center
  let intersection := direction.length - (other.radius + self.radius)
  if intersection > f32EPS then none
  else some (Vec2.smul intersection direction.normalized)

/-- `Ball::resolve_bounding`: clamp the center to the rectangle shrunk by the
radius and flip the out-of-bounds velocity component.  `pos` is captured once
before either axis is clamped, exactly as in the source. -/
def resolve_bounding (self : Ball) (left bottom right top : ℝ) : Ball :=
  let mid : Vec2 := ⟨(right + left) / 2, (top + bottom) / 2⟩
  let half : Vec2 :=
    ⟨(right - left) / 2 - self.radius, (top - bottom) / 2 - self.radius⟩
  let pos := Vec2.sub self.center mid
  let cx := if |pos.x| > half.x then half.x * fsign pos.x + mid.x
    else self.center.x
  let vx := if |pos.x| > half.x then self.velocity.x * (-1 * DAMPING)
    else self.velocity.x
  let cy := if |pos.y| > half.y then half.y * fsign pos.y + mid.y
    else self.center.y
  let vy := if |pos.y| > half.y then self.velocity.y * (-1 * DAMPING)
    else self.velocity.y
  { self with center := ⟨cx, cy⟩, velocity := ⟨vx, vy⟩ }

/-- The `for ball in balls` loop of `Ball::update`: fold the pairwise
collision resolution over the other balls in order, threading the updated
`self` and returning the updated list. -/
def updateLoop (self : Ball) : List Ball → Ball × List Ball
  | [] => (self, [])
  | other :: rest =>
    if self.id = other.id then
      let r := updateLoop self rest
      (r.1, other :: r.2)
    else
      match self.collides other with
      | none =>
        let r := updateLoop self rest
        (r.1, other :: r.2)
      | some v =>
        let p := self.apply_collision v other
        let r := updateLoop p.1 rest
        (r.1, p.2 :: r.2)

/-- `Ball::update`: early return when asleep; otherwise gravity integration,
motion, pairwise collision resolution, boundary containment, and the
wake-budget decrement on a qualifying (slow) frame. -/
def update (self : Ball) (dt : ℝ) (balls : List Ball) : Ball × List Ball :=
  if self.freezing < 0 then (self, balls)
  else
    let v1 := Vec2.add self.velocity (Vec2.smul dt GRAVITY)
    let b1 := { self with velocity := v1, center := Vec2.add self.center (Vec2.smul dt v1) }
    let r := updateLoop b1 balls
    let b2 := r.1.resolve_bounding 0 0 640 480
    let b3 := if b2.velocity.length < FREEZING_THRESHOLD then
        { b2 with freezing := b2.freezing - 1 }
      else b2
    (b3, r.2)

end Ball

/-- `Body` from `phys.rs`. -/
structure PBody where
  velocity : Vec2
  position : Vec2

/-- `Circle` from `phys.rs`. -/
structure Circle where
  body : PBody
  radius : ℝ

/-- `impl Collides<Circle> for Circle` from `phys.rs`: the circle-circle
detector returning `-normalized(self - other) * (dist - (r_self + r_other))`. -/
def Circle.interact (self other : Circle) : Option Vec2 :=
  let min_dist := self.radius + other.radius
  let interaction_vec := Vec2.sub self.body.position other.body.position
  let intersection_len := interaction_vec.length - min_dist
  if intersection_len > f32EPS then none
  else some (Vec2.smul intersection_len (Vec2.neg interaction_vec.normalized))

/-- `n` successive frames of `Ball::update` starting from a ball and the list
of other balls, threading the updated list through (the main loop re-reads
the mutated population every frame). -/
def simFrames (dt : ℝ) (s : Ball × List Ball) : ℕ → Ball × List Ball
  | 0 => s
  | n + 1 => (simFrames dt s n).1.update dt (simFrames dt s n).2

/-- Concrete ball used by witnesses: the spec's scenario body `a`
(radius 20, mass 20, speed 100 along x). -/
def ballA : Ball :=
  { id := 0, center := ⟨0, 0⟩, radius := 20, mass := 20, color := 0,
    velocity := ⟨100, 0⟩, freezing := 10 }

/-- Concrete ball used by witnesses: the spec's scenario body `b`
(radius 20, mass 40, speed -50 along x, at distance 39). -/
def ballB : Ball :=
  { id := 1, center := ⟨39, 0⟩, radius := 20, mass := 40, color := 0,
    velocity := ⟨-50, 0⟩, freezing := 10 }

/-- Concrete sleeping ball (wake budget `-1`) used by the wake-on-impact
witness. -/
def sleepyB : Ball :=
  { id := 1, center := ⟨39, 0⟩, radius := 20, mass := 20, color := 0,
    velocity := ⟨0, 0⟩, freezing := -1 }

/-- Concrete out-of-bounds ball used by the containment-idempotence
witness. -/
def ballOut : Ball :=
  { id := 0, center := ⟨700, 200⟩, radius := 20, mass := 20, color := 0,
    velocity := ⟨5, 3⟩, freezing := 10 }

/-- A resting ball in the middle of the arena with wake budget `f`, used by
the sleep-countdown witnesses. -/
def ballF (f : ℤ) : Ball :=
  { id := 0, center := ⟨320, 240⟩, radius := 20, mass := 20, color := 0,
    velocity := Vec2.zero, freezing := f }

/-! ### Basic vector lemmas -/

lemma Vec2.length_nonneg (v : Vec2) : 0 ≤ v.length :=
  Real.sqrt_nonneg _

lemma Vec2.length_mul_self (v : Vec2) :
    v.length * v.length = v.x * v.x + v.y * v.y :=
  Real.mul_self_sqrt (add_nonneg (mul_self_nonneg _) (mul_self_nonneg _))

lemma Vec2.length_pos_of_ne_zero (v : Vec2) (h : v ≠ Vec2.zero) :
    0 < v.length := by
  have hxy : v.x * v.x + v.y * v.y ≠ 0 := by
    intro hc
    apply h
    have hx : v.x = 0 := by nlinarith [mul_self_nonneg v.x, mul_self_nonneg v.y]
    have hy : v.y = 0 := by nlinarith [mul_self_nonneg v.x, mul_self_nonneg v.y]
    cases v
    simp_all [Vec2.zero]
  have hpos : 0 < v.x * v.x + v.y * v.y :=
    lt_of_le_of_ne (add_nonneg (mul_self_nonneg _) (mul_self_nonneg _))
      (Ne.symm hxy)
  have : 0 < Real.sqrt (v.x * v.x + v.y * v.y) := Real.sqrt_pos.mpr hpos
  exact this

lemma Vec2.normalized_dot_self (v : Vec2) (h : v ≠ Vec2.zero) :
    v.normalized.dot v.normalized = 1 := by
  have hL := Vec2.length_pos_of_ne_zero v h
  have hsq := Vec2.length_mul_self v
  unfold Vec2.normalized Vec2.dot
  field_simp
  linarith [hsq]

/-- Dotting the recombined velocity `c·tangent + d·normal` with the (unit)
normal recovers `d`. -/
lemma Vec2.combo_dot_normal (c d : ℝ) (n : Vec2) (hnn : n.dot n = 1) :
    (Vec2.add (Vec2.smul c ⟨-n.y, n.x⟩) (Vec2.smul d n)).dot n = d := by
  unfold Vec2.dot at hnn
  unfold Vec2.add Vec2.smul Vec2.dot
  linear_combination d * hnn

/-- Dotting the recombined velocity `c·tangent + d·normal` with the tangent
recovers `c`. -/
lemma Vec2.combo_dot_tangent (c d : ℝ) (n : Vec2) (hnn : n.dot n = 1) :
    (Vec2.add (Vec2.smul c ⟨-n.y, n.x⟩) (Vec2.smul d n)).dot ⟨-n.y, n.x⟩
      = c := by
  unfold Vec2.dot at hnn
  unfold Vec2.add Vec2.smul Vec2.dot
  linear_combination c * hnn

/-! ### Unfolding lemmas for `Ball::apply_collision` -/

lemma Ball.apply_collision_fst_velocity (a b : Ball) (v : Vec2) :
    (a.apply_collision v b).1.velocity =
      Vec2.add
        (Vec2.smul (a.velocity.dot ⟨-v.normalized.y, v.normalized.x⟩)
          ⟨-v.normalized.y, v.normalized.x⟩)
        (Vec2.smul
          ((a.velocity.dot v.normalized * (a.mass - b.mass)
              + 2 * b.mass * (b.velocity.dot v.normalized))
            / (a.mass + b.mass))
          v.normalized) := rfl

lemma Ball.apply_collision_snd_velocity (a b : Ball) (v : Vec2) :
    (a.apply_collision v b).2.velocity =
      Vec2.add
        (Vec2.smul (b.velocity.dot ⟨-v.normalized.y, v.normalized.x⟩)
          ⟨-v.normalized.y, v.normalized.x⟩)
        (Vec2.smul
          ((b.velocity.dot v.normalized * (b.mass - a.mass)
              + 2 * a.mass * (a.velocity.dot v.normalized))
            / (a.mass + b.mass))
          v.normalized) := rfl

lemma Ball.apply_collision_fst_center (a b : Ball) (v : Vec2) :
    (a.apply_collision v b).1.center =
      Vec2.add a.center (Vec2.smul (1 / 2) v) := rfl

lemma Ball.apply_collision_snd_center (a b : Ball) (v : Vec2) :
    (a.apply_collision v b).2.center =
      Vec2.sub b.center (Vec2.smul (1 / 2) v) := rfl

lemma Ball.apply_collision_fst_freezing (a b : Ball) (v : Vec2) :
    (a.apply_collision v b).1.freezing = a.freezing := rfl

lemma Ball.apply_collision_snd_freezing (a b : Ball) (v : Vec2) :
    (a.apply_collision v b).2.freezing =
      if b.freezing < 0 ∧
          (a.apply_collision v b).2.velocity.length > FREEZING_THRESHOLD then
        (10 : ℤ)
      else b.freezing := rfl

/-! ### C1 -/

/-- C1: for positive masses and a non-zero penetration vector `v`,
`apply_collision` gives each ball the standard two-body elastic new normal
velocity component along `n = normalize(v)`, keeps the tangential component
unchanged, and recombines as `tangent_component·tangent +
normal_component'·normal`. -/
theorem C1_elastic_response (a b : Ball) (v n t : Vec2)
    (hma : 0 < a.mass) (hmb : 0 < b.mass) (hv : v ≠ Vec2.zero)
    (hn : n = v.normalized) (ht : t = ⟨-n.y, n.x⟩) :
    ((a.apply_collision v b).1.velocity.dot n =
        (a.velocity.dot n * (a.mass - b.mass)
            + 2 * b.mass * (b.velocity.dot n)) / (a.mass + b.mass)) ∧
    ((a.apply_collision v b).2.velocity.dot n =
        (b.velocity.dot n * (b.mass - a.mass)
            + 2 * a.mass * (a.velocity.dot n)) / (a.mass + b.mass)) ∧
    ((a.apply_collision v b).1.velocity.dot t = a.velocity.dot t) ∧
    ((a.apply_collision v b).2.velocity.dot t = b.velocity.dot t) ∧
    ((a.apply_collision v b).1.velocity =
      Vec2.add (Vec2.smul (a.velocity.dot t) t)
        (Vec2.smul ((a.apply_collision v b).1.velocity.dot n) n)) ∧
    ((a.apply_collision v b).2.velocity =
      Vec2.add (Vec2.smul (b.velocity.dot t) t)
        (Vec2.smul ((a.apply_collision v b).2.velocity.dot n) n)) := by
  subst hn
  subst ht
  have hnn : v.normalized.dot v.normalized = 1 :=
    Vec2.normalized_dot_self v hv
  refine ⟨?_, ?_, ?_, ?_, ?_, ?_⟩
  · rw [Ball.apply_collision_fst_velocity, Vec2.combo_dot_normal _ _ _ hnn]
  · rw [Ball.apply_collision_snd_velocity, Vec2.combo_dot_normal _ _ _ hnn]
  · rw [Ball.apply_collision_fst_velocity, Vec2.combo_dot_tangent _ _ _ hnn]
  · rw [Ball.apply_collision_snd_velocity, Vec2.combo_dot_tangent _ _ _ hnn]
  · rw [Ball.apply_collision_fst_velocity, Vec2.combo_dot_normal _ _ _ hnn]
  · rw [Ball.apply_collision_snd_velocity, Vec2.combo_dot_normal _ _ _ hnn]

/-- Witness for C1 at the spec's concrete scenario (masses 20 and 40,
head-on along the x-axis, penetration vector `(-1, 0)`). -/
theorem C1_elastic_response_witness :
    (ballA.apply_collision ⟨-1, 0⟩ ballB).1.velocity.dot ⟨-1, 0⟩ =
      (ballA.velocity.dot ⟨-1, 0⟩ * (ballA.mass - ballB.mass)
          + 2 * ballB.mass * (ballB.velocity.dot ⟨-1, 0⟩))
        / (ballA.mass + ballB.mass) := by
  have hv : (⟨-1, 0⟩ : Vec2) ≠ Vec2.zero := by
    intro h
    have := congrArg Vec2.x h
    norm_num [Vec2.zero] at this
  have hn : (⟨-1, 0⟩ : Vec2) = (Vec2.normalized ⟨-1, 0⟩) := by
    unfold Vec2.normalized Vec2.length
    norm_num [Real.sqrt_one]
  exact (C1_elastic_response ballA ballB ⟨-1, 0⟩ ⟨-1, 0⟩ ⟨0, -1⟩
    (by norm_num [ballA]) (by norm_num [ballB]) hv hn
    (by norm_num)).1

/-! ### More vector lemmas -/

lemma Vec2.eq_of_components {u w : Vec2} (hx : u.x = w.x) (hy : u.y = w.y) :
    u = w := by
  cases u
  cases w
  simp_all

lemma Vec2.length_smul (c : ℝ) (w : Vec2) :
    (Vec2.smul c w).length = |c| * w.length := by
  unfold Vec2.smul Vec2.length
  rw [show c * w.x * (c * w.x) + c * w.y * (c * w.y)
      = (c * c) * (w.x * w.x + w.y * w.y) by ring]
  rw [Real.sqrt_mul (mul_self_nonneg c), Real.sqrt_mul_self_eq_abs]

lemma normalized_neg_one_zero : Vec2.normalized ⟨-1, 0⟩ = ⟨-1, 0⟩ := by
  unfold Vec2.normalized Vec2.length
  norm_num [Real.sqrt_one]

/-- Subtracting `(|d| - r)·normalize(d)` from `d` rescales `d` by
`r / |d|`. -/
lemma Vec2.sub_smul_normalized (d : Vec2) (r : ℝ) (hL : d.length ≠ 0) :
    Vec2.sub d (Vec2.smul (d.length - r) d.normalized)
      = Vec2.smul (r / d.length) d := by
  refine Vec2.eq_of_components ?_ ?_ <;>
    · unfold Vec2.sub Vec2.smul Vec2.normalized
      field_simp
      ring

/-! ### C4 -/

/-- C4: for positive masses and a head-on collision (both velocities along
the penetration vector), the momentum `m_a·v_a + m_b·v_b` projected onto the
contact normal is unchanged by `apply_collision`. -/
theorem C4_momentum_conservation (a b : Ball) (v : Vec2) (α β : ℝ)
    (hma : 0 < a.mass) (hmb : 0 < b.mass) (hv : v ≠ Vec2.zero)
    (hva : a.velocity = Vec2.smul α v) (hvb : b.velocity = Vec2.smul β v) :
    a.mass * ((a.apply_collision v b).1.velocity.dot v.normalized)
      + b.mass * ((a.apply_collision v b).2.velocity.dot v.normalized)
    = a.mass * (a.velocity.dot v.normalized)
      + b.mass * (b.velocity.dot v.normalized) := by
  have hnn := Vec2.normalized_dot_self v hv
  rw [Ball.apply_collision_fst_velocity, Ball.apply_collision_snd_velocity,
    Vec2.combo_dot_normal _ _ _ hnn, Vec2.combo_dot_normal _ _ _ hnn]
  have htm : a.mass + b.mass ≠ 0 := by positivity
  field_simp
  ring

/-- Witness for C4 at the spec's concrete head-on scenario. -/
theorem C4_momentum_conservation_witness :
    ballA.mass
        * ((ballA.apply_collision ⟨-1, 0⟩ ballB).1.velocity.dot
            (Vec2.normalized ⟨-1, 0⟩))
      + ballB.mass
        * ((ballA.apply_collision ⟨-1, 0⟩ ballB).2.velocity.dot
            (Vec2.normalized ⟨-1, 0⟩))
    = ballA.mass * (ballA.velocity.dot (Vec2.normalized ⟨-1, 0⟩))
      + ballB.mass * (ballB.velocity.dot (Vec2.normalized ⟨-1, 0⟩)) := by
  have hv : (⟨-1, 0⟩ : Vec2) ≠ Vec2.zero := by
    intro h
    have := congrArg Vec2.x h
    norm_num [Vec2.zero] at this
  refine C4_momentum_conservation ballA ballB ⟨-1, 0⟩ (-100) 50
    (by norm_num [ballA]) (by norm_num [ballB]) hv ?_ ?_
  · exact Vec2.eq_of_components (by norm_num [ballA, Vec2.smul])
      (by norm_num [ballA, Vec2.smul])
  · exact Vec2.eq_of_components (by norm_num [ballB, Vec2.smul])
      (by norm_num [ballB, Vec2.smul])

/-! ### C5 -/

/-- C5: if the struck ball was asleep (negative wake budget) and its
post-collision speed exceeds the freezing threshold, `apply_collision`
resets its wake budget to 10, so it is active (budget ≥ 0) again. -/
theorem C5_wake_on_impact (a b : Ball) (v : Vec2)
    (hb : b.freezing < 0)
    (hs : (a.apply_collision v b).2.velocity.length > FREEZING_THRESHOLD) :
    (a.apply_collision v b).2.freezing = 10 ∧
      0 ≤ (a.apply_collision v b).2.freezing := by
  have h10 : (a.apply_collision v b).2.freezing = 10 := by
    rw [Ball.apply_collision_snd_freezing]
    exact if_pos ⟨hb, hs⟩
  exact ⟨h10, by rw [h10]; norm_num⟩

/-- Witness for C5: a moving ball strikes a sleeping one of equal mass; the
struck ball leaves at speed 100 and wakes up. -/
theorem C5_wake_on_impact_witness :
    (ballA.apply_collision ⟨-1, 0⟩ sleepyB).2.freezing = 10 ∧
      0 ≤ (ballA.apply_collision ⟨-1, 0⟩ sleepyB).2.freezing := by
  have hs : (ballA.apply_collision ⟨-1, 0⟩ sleepyB).2.velocity.length
      > FREEZING_THRESHOLD := by
    rw [Ball.apply_collision_snd_velocity, normalized_neg_one_zero]
    have h100 : Real.sqrt 10000 = 100 := by
      rw [show (10000 : ℝ) = 100 ^ 2 by norm_num]
      exact Real.sqrt_sq (by norm_num)
    unfold Vec2.dot Vec2.add Vec2.smul Vec2.length
    norm_num [ballA, sleepyB, FREEZING_THRESHOLD, h100]
  exact C5_wake_on_impact ballA sleepyB ⟨-1, 0⟩ (by norm_num [sleepyB]) hs

/-! ### C3 -/

/-- C3: for distinct-center balls of positive radii on which `collides`
reports contact, `apply_collision` with the returned penetration vector
separates the centers to at least `a.radius + b.radius - ε`. -/
theorem C3_separation (a b : Ball) (v : Vec2)
    (hne : a.center ≠ b.center) (hra : 0 < a.radius) (hrb : 0 < b.radius)
    (hc : a.collides b = some v) :
    (Vec2.sub (a.apply_collision v b).2.center
        (a.apply_collision v b).1.center).length
      ≥ a.radius + b.radius - f32EPS := by
  have hdne : Vec2.sub b.center a.center ≠ Vec2.zero := by
    intro h0
    apply hne
    have hx := congrArg Vec2.x h0
    have hy := congrArg Vec2.y h0
    simp only [Vec2.sub, Vec2.zero] at hx hy
    exact Vec2.eq_of_components (by linarith) (by linarith)
  have hLpos := Vec2.length_pos_of_ne_zero _ hdne
  have hLne : (Vec2.sub b.center a.center).length ≠ 0 := ne_of_gt hLpos
  unfold Ball.collides at hc
  by_cases hgt :
      (Vec2.sub b.center a.center).length - (b.radius + a.radius) > f32EPS
  · rw [if_pos hgt] at hc
    exact absurd hc (by simp)
  · rw [if_neg hgt] at hc
    have hv : v = Vec2.smul
        ((Vec2.sub b.center a.center).length - (b.radius + a.radius))
        (Vec2.sub b.center a.center).normalized :=
      (Option.some_inj.mp hc).symm
    have hdiff : Vec2.sub (a.apply_collision v b).2.center
        (a.apply_collision v b).1.center
        = Vec2.sub (Vec2.sub b.center a.center) v := by
      rw [Ball.apply_collision_fst_center, Ball.apply_collision_snd_center]
      refine Vec2.eq_of_components ?_ ?_ <;>
        · unfold Vec2.sub Vec2.add Vec2.smul
          ring
    rw [hdiff, hv, Vec2.sub_smul_normalized _ _ hLne, Vec2.length_smul,
      abs_of_nonneg (div_nonneg (by linarith) (le_of_lt hLpos)),
      div_mul_cancel₀ _ hLne]
    have heps : (0 : ℝ) < f32EPS := by norm_num [f32EPS]
    linarith

/-- Witness for C3 at the spec's concrete scenario: radii 20 and 20 at
distance 39; the resolved distance is at least `40 - ε`. -/
theorem C3_separation_witness :
    (Vec2.sub (ballA.apply_collision ⟨-1, 0⟩ ballB).2.center
        (ballA.apply_collision ⟨-1, 0⟩ ballB).1.center).length
      ≥ ballA.radius + ballB.radius - f32EPS := by
  have h39 : Real.sqrt 1521 = 39 := by
    rw [show (1521 : ℝ) = 39 ^ 2 by norm_num]
    exact Real.sqrt_sq (by norm_num)
  have hne : ballA.center ≠ ballB.center := by
    intro h
    have := congrArg Vec2.x h
    norm_num [ballA, ballB] at this
  have hc : ballA.collides ballB = some ⟨-1, 0⟩ := by
    have hlen : ({ x := (39 : ℝ), y := 0 } : Vec2).length = 39 := by
      unfold Vec2.length
      rw [show (39 : ℝ) * 39 + 0 * 0 = 1521 by norm_num, h39]
    unfold Ball.collides Vec2.sub Vec2.normalized Vec2.smul
    norm_num [ballA, ballB, f32EPS, hlen]
  exact C3_separation ballA ballB ⟨-1, 0⟩ hne (by norm_num [ballA])
    (by norm_num [ballB]) hc

/-! ### Unfolding lemmas for `Ball::resolve_bounding` -/

lemma Ball.eq_of_fields {u w : Ball} (hid : u.id = w.id)
    (hc : u.center = w.center) (hr : u.radius = w.radius)
    (hm : u.mass = w.mass) (hco : u.color = w.color)
    (hv : u.velocity = w.velocity) (hf : u.freezing = w.freezing) :
    u = w := by
  cases u
  cases w
  simp_all

lemma Ball.resolve_bounding_center_x (c : Ball) (l bo r t : ℝ) :
    (c.resolve_bounding l bo r t).center.x =
      if |c.center.x - (r + l) / 2| > (r - l) / 2 - c.radius then
        ((r - l) / 2 - c.radius) * fsign (c.center.x - (r + l) / 2)
          + (r + l) / 2
      else c.center.x := rfl

lemma Ball.resolve_bounding_center_y (c : Ball) (l bo r t : ℝ) :
    (c.resolve_bounding l bo r t).center.y =
      if |c.center.y - (t + bo) / 2| > (t - bo) / 2 - c.radius then
        ((t - bo) / 2 - c.radius) * fsign (c.center.y - (t + bo) / 2)
          + (t + bo) / 2
      else c.center.y := rfl

lemma Ball.resolve_bounding_velocity_x (c : Ball) (l bo r t : ℝ) :
    (c.resolve_bounding l bo r t).velocity.x =
      if |c.center.x - (r + l) / 2| > (r - l) / 2 - c.radius then
        c.velocity.x * (-1 * DAMPING)
      else c.velocity.x := rfl

lemma Ball.resolve_bounding_velocity_y (c : Ball) (l bo r t : ℝ) :
    (c.resolve_bounding l bo r t).velocity.y =
      if |c.center.y - (t + bo) / 2| > (t - bo) / 2 - c.radius then
        c.velocity.y * (-1 * DAMPING)
      else c.velocity.y := rfl

lemma Ball.resolve_bounding_radius (c : Ball) (l bo r t : ℝ) :
    (c.resolve_bounding l bo r t).radius = c.radius := rfl

lemma Ball.resolve_bounding_freezing (c : Ball) (l bo r t : ℝ) :
    (c.resolve_bounding l bo r t).freezing = c.freezing := rfl

lemma Ball.resolve_bounding_velocity (c : Ball) (l bo r t : ℝ) :
    (c.resolve_bounding l bo r t).velocity =
      ⟨(c.resolve_bounding l bo r t).velocity.x,
       (c.resolve_bounding l bo r t).velocity.y⟩ := rfl

/-- A ball already inside the (radius-shrunk) rectangle is left unchanged by
`resolve_bounding`. -/
lemma Ball.resolve_bounding_fixed (c : Ball) (l bo r t : ℝ)
    (hx : ¬ |c.center.x - (r + l) / 2| > (r - l) / 2 - c.radius)
    (hy : ¬ |c.center.y - (t + bo) / 2| > (t - bo) / 2 - c.radius) :
    c.resolve_bounding l bo r t = c := by
  refine Ball.eq_of_fields rfl ?_ rfl rfl rfl ?_ rfl
  · refine Vec2.eq_of_components ?_ ?_
    · rw [Ball.resolve_bounding_center_x]
      exact if_neg hx
    · rw [Ball.resolve_bounding_center_y]
      exact if_neg hy
  · refine Vec2.eq_of_components ?_ ?_
    · rw [Ball.resolve_bounding_velocity_x]
      exact if_neg hx
    · rw [Ball.resolve_bounding_velocity_y]
      exact if_neg hy

lemma abs_fsign (z : ℝ) : |fsign z| = 1 := by
  unfold fsign
  split <;> norm_num

/-! ### C6 -/

/-- C6: for a ball whose radius is at most half the width and half the
height of the boundary rectangle, `resolve_bounding` is idempotent: a second
call with the same rectangle and no intervening motion changes nothing. -/
theorem C6_contain_idempotent (c : Ball) (l bo r t : ℝ)
    (hw : c.radius ≤ (r - l) / 2) (hh : c.radius ≤ (t - bo) / 2) :
    (c.resolve_bounding l bo r t).resolve_bounding l bo r t
      = c.resolve_bounding l bo r t := by
  have hxhalf : (0 : ℝ) ≤ (r - l) / 2 - c.radius := by linarith
  have hyhalf : (0 : ℝ) ≤ (t - bo) / 2 - c.radius := by linarith
  apply Ball.resolve_bounding_fixed
  · rw [Ball.resolve_bounding_radius, Ball.resolve_bounding_center_x]
    by_cases hcx : |c.center.x - (r + l) / 2| > (r - l) / 2 - c.radius
    · rw [if_pos hcx, not_lt]
      rw [show ((r - l) / 2 - c.radius) * fsign (c.center.x - (r + l) / 2)
            + (r + l) / 2 - (r + l) / 2
          = ((r - l) / 2 - c.radius) * fsign (c.center.x - (r + l) / 2)
          by ring]
      rw [abs_mul, abs_fsign, mul_one, abs_of_nonneg hxhalf]
    · rw [if_neg hcx]
      exact hcx
  · rw [Ball.resolve_bounding_radius, Ball.resolve_bounding_center_y]
    by_cases hcy : |c.center.y - (t + bo) / 2| > (t - bo) / 2 - c.radius
    · rw [if_pos hcy, not_lt]
      rw [show ((t - bo) / 2 - c.radius) * fsign (c.center.y - (t + bo) / 2)
            + (t + bo) / 2 - (t + bo) / 2
          = ((t - bo) / 2 - c.radius) * fsign (c.center.y - (t + bo) / 2)
          by ring]
      rw [abs_mul, abs_fsign, mul_one, abs_of_nonneg hyhalf]
    · rw [if_neg hcy]
      exact hcy

/-- Witness for C6: a radius-20 ball at `(700, 200)`, outside the
`640 × 480` arena. -/
theorem C6_contain_idempotent_witness :
    (ballOut.resolve_bounding 0 0 640 480).resolve_bounding 0 0 640 480
      = ballOut.resolve_bounding 0 0 640 480 :=
  C6_contain_idempotent ballOut 0 0 640 480 (by norm_num [ballOut])
    (by norm_num [ballOut])

/-! ### C7 -/

lemma Vec2.sub_length_comm (u w : Vec2) :
    (Vec2.sub u w).length = (Vec2.sub w u).length := by
  unfold Vec2.sub Vec2.length
  ring_nf

lemma Vec2.smul_x (c : ℝ) (w : Vec2) : (Vec2.smul c w).x = c * w.x := rfl

lemma Vec2.smul_y (c : ℝ) (w : Vec2) : (Vec2.smul c w).y = c * w.y := rfl

lemma Vec2.neg_x (w : Vec2) : (Vec2.neg w).x = -w.x := rfl

lemma Vec2.neg_y (w : Vec2) : (Vec2.neg w).y = -w.y := rfl

lemma Vec2.sub_x (u w : Vec2) : (Vec2.sub u w).x = u.x - w.x := rfl

lemma Vec2.sub_y (u w : Vec2) : (Vec2.sub u w).y = u.y - w.y := rfl

lemma Vec2.normalized_x (w : Vec2) : w.normalized.x = w.x / w.length := rfl

lemma Vec2.normalized_y (w : Vec2) : w.normalized.y = w.y / w.length := rfl

/-- C7: the circle-circle detector of `phys.rs` and `Ball::collides` of
`main.rs` return the same contact decision and the same penetration vector
(including its sign) for any two circles with the same centers and radii. -/
theorem C7_detectors_agree (pa pb va vb : Vec2) (ra rb ma mb : ℝ)
    (ia ib ca cb : ℕ) (fa fb : ℤ) :
    Circle.interact ⟨⟨va, pa⟩, ra⟩ ⟨⟨vb, pb⟩, rb⟩
      = Ball.collides ⟨ia, pa, ra, ma, ca, va, fa⟩
          ⟨ib, pb, rb, mb, cb, vb, fb⟩ := by
  unfold Circle.interact Ball.collides
  have hI : (Vec2.sub pa pb).length - (ra + rb)
      = (Vec2.sub pb pa).length - (rb + ra) := by
    rw [Vec2.sub_length_comm]
    ring
  simp only [hI]
  split_ifs with h
  · rfl
  · refine congrArg some (Vec2.eq_of_components ?_ ?_)
    · simp only [Vec2.smul_x, Vec2.neg_x, Vec2.normalized_x, Vec2.sub_x,
        Vec2.sub_length_comm pa pb]
      ring
    · simp only [Vec2.smul_y, Vec2.neg_y, Vec2.normalized_y, Vec2.sub_y,
        Vec2.sub_length_comm pa pb]
      ring

/-! ### Wake-budget lemmas for `Ball::update` -/

/-- The pairwise-collision loop never touches the updating ball's own wake
budget. -/
lemma Ball.updateLoop_fst_freezing (b : Ball) (l : List Ball) :
    (Ball.updateLoop b l).1.freezing = b.freezing := by
  induction l generalizing b with
  | nil => rfl
  | cons o rest ih =>
    unfold Ball.updateLoop
    split_ifs with hid
    · exact ih b
    · cases hcol : b.collides o with
      | none => exact ih b
      | some v =>
        exact (ih _).trans (Ball.apply_collision_fst_freezing b o v)

/-- An asleep ball (`freezing < 0`) is returned unchanged by `update`, as is
the rest of the population. -/
lemma Ball.update_sleep (b : Ball) (dt : ℝ) (bs : List Ball)
    (h : b.freezing < 0) : b.update dt bs = (b, bs) := by
  unfold Ball.update
  rw [if_pos h]

/-- For an active ball, `update` decrements the wake budget exactly when the
post-step speed is below the freezing threshold, and leaves it unchanged
otherwise. -/
lemma Ball.update_fst_freezing (b : Ball) (dt : ℝ) (bs : List Ball)
    (h : ¬ b.freezing < 0) :
    (b.update dt bs).1.freezing =
      if (b.update dt bs).1.velocity.length < FREEZING_THRESHOLD then
        b.freezing - 1
      else b.freezing := by
  simp only [Ball.update, if_neg h]
  split_ifs with h1
  · simp [Ball.resolve_bounding_freezing, Ball.updateLoop_fst_freezing]
  · simp [Ball.resolve_bounding_freezing, Ball.updateLoop_fst_freezing]

/-! ### C9 -/

/-- C9: no operation raises an active ball's wake budget: `update` leaves it
unchanged or decrements it, `apply_collision` never touches the first ball's
budget, leaves an active struck ball's budget unchanged, and changes the
struck ball's budget only by resetting a negative budget to 10. -/
theorem C9_budget_never_restored (dt : ℝ) :
    (∀ (b : Ball) (bs : List Ball), 0 ≤ b.freezing →
      (b.update dt bs).1.freezing = b.freezing ∨
        (b.update dt bs).1.freezing = b.freezing - 1) ∧
    (∀ (a b : Ball) (v : Vec2),
      (a.apply_collision v b).1.freezing = a.freezing) ∧
    (∀ (a b : Ball) (v : Vec2), 0 ≤ b.freezing →
      (a.apply_collision v b).2.freezing = b.freezing) ∧
    (∀ (a b : Ball) (v : Vec2),
      (a.apply_collision v b).2.freezing ≠ b.freezing →
        b.freezing < 0 ∧ (a.apply_collision v b).2.freezing = 10) := by
  refine ⟨?_, ?_, ?_, ?_⟩
  · intro b bs hb
    rw [Ball.update_fst_freezing b dt bs (not_lt.mpr hb)]
    split_ifs
    · right
      rfl
    · left
      rfl
  · intro a b v
    exact Ball.apply_collision_fst_freezing a b v
  · intro a b v hb
    rw [Ball.apply_collision_snd_freezing]
    rw [if_neg]
    intro hc
    exact absurd hb (not_le.mpr hc.1)
  · intro a b v hne
    rw [Ball.apply_collision_snd_freezing] at hne ⊢
    by_cases hc : b.freezing < 0 ∧
        (a.apply_collision v b).2.velocity.length > FREEZING_THRESHOLD
    · exact ⟨hc.1, if_pos hc⟩
    · exact absurd (if_neg hc) hne

/-- Witness for C9 at `dt = 0`, the resting concrete ball and the concrete
collision pair. -/
theorem C9_budget_never_restored_witness :
    ((ballF 10).update 0 []).1.freezing = (ballF 10).freezing ∨
      ((ballF 10).update 0 []).1.freezing = (ballF 10).freezing - 1 :=
  (C9_budget_never_restored 0).1 (ballF 10) [] (by norm_num [ballF])

/-! ### C2 -/

/-- One `dt = 0` frame of the resting ball alone in the arena: the only
effect is the wake-budget decrement. -/
lemma ballF_step (f : ℤ) (hf : 0 ≤ f) :
    (ballF f).update 0 [] = (ballF (f - 1), []) := by
  have hf' : ¬ (ballF f).freezing < 0 := not_lt.mpr hf
  unfold Ball.update Ball.updateLoop Ball.resolve_bounding
  rw [if_neg hf']
  simp only [ballF, Vec2.add, Vec2.smul, Vec2.sub, Vec2.zero, GRAVITY,
    fsign, Vec2.length, FREEZING_THRESHOLD]
  norm_num [Real.sqrt_zero]

/-- The resting ball's full trajectory: after `n ≤ 11` frames the budget is
`10 - n` and nothing else has changed. -/
lemma simFrames_ballF (n : ℕ) (hn : n ≤ 11) :
    simFrames 0 (ballF 10, []) n = (ballF (10 - (n : ℤ)), []) := by
  induction n with
  | zero => rfl
  | succ k ih =>
    have hk : k ≤ 11 := Nat.le_of_succ_le hn
    have hstep : simFrames 0 (ballF 10, []) (k + 1)
        = (simFrames 0 (ballF 10, []) k).1.update 0
            (simFrames 0 (ballF 10, []) k).2 := rfl
    rw [hstep, ih hk]
    rw [ballF_step (10 - (k : ℤ)) (by omega)]
    rw [show (10 : ℤ) - (k : ℤ) - 1 = 10 - ((k : ℤ) + 1) by ring]
    push_cast
    rfl

/-- C2 counterexample: the freshly created resting ball (wake budget 10)
with `dt = 0` has speed `0 < 1e-4` on every frame, yet after 10 qualifying
frames its budget is `0`, which is not negative — it only falls asleep on
the 11th qualifying frame. -/
theorem C2_counterexample :
    (simFrames 0 (Ball.new 0 ⟨320, 240⟩ 20 0, []) 10).1.freezing = 0 ∧
    ¬ (simFrames 0 (Ball.new 0 ⟨320, 240⟩ 20 0, []) 10).1.freezing < 0 ∧
    (simFrames 0 (Ball.new 0 ⟨320, 240⟩ 20 0, []) 11).1.freezing = -1 := by
  have hb : Ball.new 0 ⟨320, 240⟩ 20 0 = ballF 10 := rfl
  rw [hb, simFrames_ballF 10 (by norm_num), simFrames_ballF 11 (by norm_num)]
  norm_num [ballF]

/-- C2 (amended): for a freshly created ball (wake budget 10) whose
post-step speed stays below the freezing threshold on every frame, each
qualifying frame decrements the budget by one, the ball is asleep (budget
negative) after exactly 11 qualifying frames, and an asleep ball is left
completely unchanged by `update`. -/
theorem C2_sleep_countdown (b : Ball) (bs : List Ball) (dt : ℝ)
    (h0 : b.freezing = 10)
    (hq : ∀ k, k < 11 →
      (simFrames dt (b, bs) (k + 1)).1.velocity.length < FREEZING_THRESHOLD) :
    (∀ n, n ≤ 11 →
      (simFrames dt (b, bs) n).1.freezing = 10 - (n : ℤ)) ∧
    (simFrames dt (b, bs) 11).1.freezing < 0 ∧
    (∀ (c : Ball) (cs : List Ball), c.freezing < 0 →
      c.update dt cs = (c, cs)) := by
  have main : ∀ n, n ≤ 11 →
      (simFrames dt (b, bs) n).1.freezing = 10 - (n : ℤ) := by
    intro n
    induction n with
    | zero =>
      intro _
      simpa using h0
    | succ k ih =>
      intro hk1
      have hkfreeze := ih (Nat.le_of_succ_le hk1)
      have hact : ¬ (simFrames dt (b, bs) k).1.freezing < 0 := by
        rw [hkfreeze]
        omega
      have hqk : ((simFrames dt (b, bs) k).1.update dt
            (simFrames dt (b, bs) k).2).1.velocity.length
          < FREEZING_THRESHOLD := hq k (by omega)
      show ((simFrames dt (b, bs) k).1.update dt
          (simFrames dt (b, bs) k).2).1.freezing = 10 - ((k + 1 : ℕ) : ℤ)
      rw [Ball.update_fst_freezing _ dt _ hact, if_pos hqk, hkfreeze]
      push_cast
      ring
  refine ⟨main, ?_, ?_⟩
  · rw [main 11 (le_refl _)]
    norm_num
  · intro c cs hc
    exact Ball.update_sleep c dt cs hc

/-- Witness for C2 (amended): the concrete resting ball at `dt = 0` is
asleep after 11 frames. -/
theorem C2_sleep_countdown_witness :
    (simFrames 0 (ballF 10, []) 11).1.freezing < 0 :=
  (C2_sleep_countdown (ballF 10) [] 0 rfl (fun k hk => by
    rw [simFrames_ballF (k + 1) (by omega)]
    show Vec2.length Vec2.zero < FREEZING_THRESHOLD
    unfold Vec2.length Vec2.zero FREEZING_THRESHOLD
    norm_num [Real.sqrt_zero])).2.1

/-! ### C10 -/

/-- C10 counterexample: with scale `-1`, `set_scale` leaves a negative
per-axis scale component, so `project` does not map with positive scale on
both axes; the claim fails for non-positive `s`. -/
theorem C10_counterexample :
    ((Camera.new ⟨0, 0⟩ 1).invert_v.set_scale (-1)).scale_v.x = -1 ∧
    ¬ 0 < ((Camera.new ⟨0, 0⟩ 1).invert_v.set_scale (-1)).scale_v.x :=
  ⟨rfl, by
    show ¬ (0 : ℝ) < -1
    norm_num⟩

/-- C10 (amended): `set_scale s` sets both components of the per-axis scale
vector to `s`, discarding every previously applied axis inversion, and
`project` then maps points with per-axis scale `s` — positive on both axes
whenever `s > 0`. -/
theorem C10_set_scale_resets (c : Camera) (s : ℝ) :
    ((c.set_scale s).scale_v = ⟨s, s⟩) ∧
    (∀ v : Vec2, (c.set_scale s).project v
      = ⟨v.x * s + c.position.x, v.y * s + c.position.y⟩) ∧
    (0 < s → 0 < (c.set_scale s).scale_v.x ∧
      0 < (c.set_scale s).scale_v.y) := by
  refine ⟨rfl, ?_, ?_⟩
  · intro v
    rfl
  · intro hs
    exact ⟨hs, hs⟩

/-- Witness for C10 (amended): after a vertical inversion, `set_scale 2`
restores positive scale on both axes. -/
theorem C10_set_scale_resets_witness :
    0 < ((Camera.new ⟨0, 0⟩ 1).invert_v.set_scale 2).scale_v.x ∧
      0 < ((Camera.new ⟨0, 0⟩ 1).invert_v.set_scale 2).scale_v.y :=
  (C10_set_scale_resets ((Camera.new ⟨0, 0⟩ 1).invert_v) 2).2.2 (by norm_num)

end

end BallPhys
